import Mathlib

/-!
Verification of the continuum localhost coordination server
(`src/continuum/server.py` and `src/continuum/__init__.py`).

The Python code is shallowly embedded: a `ClientConnection` becomes a
`Session` record identified by a numeric connection id `sid`; the `Server`
object becomes `HubState` (roster, routing table, delayed-packet store);
packet sends, process spawns and diagnostics become explicit output lists.
Python dicts are modelled as association lists with in-place overwrite
(later assignment wins), `defaultdict(list)` as an association list read
through a total lookup that defaults to `[]`.  The random port draw of
`read_or_generate_server_port` and the external `Index.find_export`
collaborator are passed in as parameters.
-/

namespace Continuum

/-- A packet on the wire, as built by the handlers in `server.py`.
`analysisStateUpdated` carries `self.idb_path` of the sender, which may be
`none` when the sender never identified. -/
inductive Packet where
  | newClient (input_file idb_path : String)
  | focusSymbol (symbol : String)
  | focusInstance
  | analysisStateUpdated (client : Option String) (state : String)
  | syncTypes (purge_non_indexed : Bool)
  | becomeHost
  deriving DecidableEq, Repr

/-- A local diagnostic printed by a handler. -/
inductive Diag where
  | symbolNotFound (symbol : String)
  deriving DecidableEq, Repr

/-- One `ClientConnection`: the connection identity `sid` plus the fields
assigned in `__init__` (both start as `None`) and overwritten by
`handle_msg_new_client`. -/
structure Session where
  sid : Nat
  input_file : Option String
  idb_path : Option String
  deriving DecidableEq, Repr

/-- Insert-or-overwrite into an association list, keeping the position of an
existing key, as Python dict assignment does. -/
def mapInsert : List (String × Nat) → String → Nat → List (String × Nat)
  | [], k, v => [(k, v)]
  | (k', v') :: rest, k, v =>
    if k' = k then (k, v) :: rest else (k', v') :: mapInsert rest k v

/-- Dict lookup (`dict.get`): the value stored under a key, if any. -/
def lookupMap (m : List (String × Nat)) (k : String) : Option Nat :=
  (m.find? (fun e => e.1 = k)).map (fun e => e.2)

/-- One iteration of the dict comprehension in
`Server.update_idb_client_map`: an identified session overwrites the entry
for its path, an unidentified one is skipped. -/
def mapStep (m : List (String × Nat)) (x : Session) : List (String × Nat) :=
  match x.idb_path with
  | some p => mapInsert m p x.sid
  | none => m

/-- The dict comprehension of `Server.update_idb_client_map`:
`{x.idb_path: x for x in self.clients if x.idb_path is not None}`,
folded over the roster with later assignments overwriting earlier ones. -/
def update_idb_client_map (clients : List Session) : List (String × Nat) :=
  clients.foldl mapStep []

/-- The state owned by `Server`: the roster `clients`, the routing table
`idb_client_map` and the delayed-packet store `_delayed_packets`. -/
structure HubState where
  clients : List Session
  idb_client_map : List (String × Nat)
  delayed : List (String × List Packet)
  deriving DecidableEq, Repr

/-- Reading `self._delayed_packets[p]` from the `defaultdict(list)`:
the stored list, or `[]` when the key was never written. -/
def delayedGet (d : List (String × List Packet)) (p : String) : List Packet :=
  ((d.find? (fun e => e.1 = p)).map (fun e => e.2)).getD []

/-- Writing back `self._delayed_packets[p].append(packet)`:
`Server.queue_delayed_packet`. -/
def queue_delayed_packet (d : List (String × List Packet)) (p : String)
    (packet : Packet) : List (String × List Packet) :=
  match d with
  | [] => [(p, [packet])]
  | (k, q) :: rest =>
    if k = p then (k, q ++ [packet]) :: rest
    else (k, q) :: queue_delayed_packet rest p packet

/-- The roster member with a given connection id, if still connected. -/
def findSession (clients : List Session) (sid : Nat) : Option Session :=
  clients.find? (fun c => c.sid = sid)

/-- Mutating the fields of the one roster member with the given id. -/
def setSession (clients : List Session) (sid : Nat) (f : Session → Session) :
    List Session :=
  clients.map (fun c => if c.sid = sid then f c else c)

/-- The field assignments at the top of `handle_msg_new_client`. -/
def identifiedSession (c : Session) (input_file idb_path : String) : Session :=
  { c with input_file := some input_file, idb_path := some idb_path }

/-- `Server.process_delayed_packets`: asserts the truthiness of
`client.idb_path` (so it fails on `None` and on the empty string), then sends
every packet stored under that path to the client.  The store itself is not
modified.  Returns `none` when the assertion fails, otherwise the list of
(receiver sid, packet) sends. -/
def process_delayed_packets (st : HubState) (client : Session) :
    Option (List (Nat × Packet)) :=
  match client.idb_path with
  | none => none
  | some p =>
    if p = "" then none
    else some ((delayedGet st.delayed p).map (fun pkt => (client.sid, pkt)))

/-- `ClientConnection.handle_msg_new_client`: record `input_file` and
`idb_path` on the session, rebuild the routing table, then deliver the
delayed packets for the new identifier.  `none` when the connection id is
not in the roster or the assertion in `process_delayed_packets` fails;
otherwise the updated hub state and the packets sent. -/
def handle_msg_new_client (st : HubState) (sid : Nat)
    (input_file idb_path : String) : Option (HubState × List (Nat × Packet)) :=
  match findSession st.clients sid with
  | none => none
  | some c =>
    let c2 := identifiedSession c input_file idb_path
    let clients2 := setSession st.clients sid
      (fun x => identifiedSession x input_file idb_path)
    let st2 : HubState :=
      { st with clients := clients2,
                idb_client_map := update_idb_client_map clients2 }
    (process_delayed_packets st2 c2).map (fun sent => (st2, sent))

/-- The state effect of `handle_msg_new_client`, which in Python happens
before (and survives) a failure of the assertion in
`process_delayed_packets`. -/
def applyIdentify (st : HubState) (sid : Nat) (input_file idb_path : String) :
    HubState :=
  match findSession st.clients sid with
  | none => st
  | some _ =>
    let clients2 := setSession st.clients sid
      (fun x => identifiedSession x input_file idb_path)
    { st with clients := clients2,
              idb_client_map := update_idb_client_map clients2 }

/-- `ClientConnection.handle_close`: drop the session from the roster and
rebuild the routing table.  The delayed store is untouched. -/
def handle_close (st : HubState) (sid : Nat) : HubState :=
  let clients2 := st.clients.filter (fun c => c.sid ≠ sid)
  { st with clients := clients2,
            idb_client_map := update_idb_client_map clients2 }

/-- `ClientConnection.send_or_delay_packet`: deliver directly when the
addressee identifier is in the routing table, otherwise queue the packet
under that identifier and spawn a fresh IDA instance
(`launch_ida_gui_instance`).  Returns the new hub state, the sends
performed, and whether a spawn happened. -/
def send_or_delay_packet (st : HubState) (receiver_idb_path : String)
    (packet : Packet) : HubState × List (Nat × Packet) × Bool :=
  match lookupMap st.idb_client_map receiver_idb_path with
  | some sid => (st, [(sid, packet)], false)
  | none =>
    ({ st with delayed := queue_delayed_packet st.delayed receiver_idb_path packet },
     [], true)

/-- `ClientConnection.broadcast_packet`: send to every roster member except
the sender, identified or not. -/
def broadcast_packet (st : HubState) (sender : Nat) (packet : Packet) :
    List (Nat × Packet) :=
  (st.clients.filter (fun c => c.sid ≠ sender)).map (fun c => (c.sid, packet))

/-- `ClientConnection.handle_msg_focus_symbol`: resolve the symbol through
the project index; on failure print a diagnostic and drop the message,
otherwise route a `focus_symbol` packet to the owning idb path.  Returns
the new hub state, the sends, the spawn flag and the diagnostics. -/
def handle_msg_focus_symbol (index : String → Option String) (st : HubState)
    (symbol : String) : HubState × List (Nat × Packet) × Bool × List Diag :=
  match index symbol with
  | none => (st, [], false, [Diag.symbolNotFound symbol])
  | some exportPath =>
    let r := send_or_delay_packet st exportPath (Packet.focusSymbol symbol)
    (r.1, r.2.1, r.2.2, [])

/-- `ClientConnection.handle_msg_focus_instance`. -/
def handle_msg_focus_instance (st : HubState) (idb_path : String) :
    HubState × List (Nat × Packet) × Bool :=
  send_or_delay_packet st idb_path Packet.focusInstance

/-- `ClientConnection.handle_msg_update_analysis_state`: broadcast an
`analysis_state_updated` packet carrying the sender idb path.  The hub
state is returned unchanged. -/
def handle_msg_update_analysis_state (st : HubState) (sid : Nat)
    (state : String) : HubState × List (Nat × Packet) :=
  match findSession st.clients sid with
  | none => (st, [])
  | some c =>
    (st, broadcast_packet st sid (Packet.analysisStateUpdated c.idb_path state))

/-- `ClientConnection.handle_msg_sync_types`: broadcast a `sync_types`
packet.  The hub state is returned unchanged. -/
def handle_msg_sync_types (st : HubState) (sid : Nat)
    (purge_non_indexed : Bool) : HubState × List (Nat × Packet) :=
  match findSession st.clients sid with
  | none => (st, [])
  | some _ =>
    (st, broadcast_packet st sid (Packet.syncTypes purge_non_indexed))

/-- `Continuum.read_or_generate_server_port`: return the persisted port when
the file exists and no fresh value is forced; otherwise persist and return
the freshly drawn random value `fresh` (the draw
`int(random.uniform(10000, 65535))` is a parameter here).  Result: the port
returned and the registry contents afterwards. -/
def read_or_generate_server_port (registry : Option Nat) (fresh : Nat)
    (force_fresh : Bool) : Nat × Option Nat :=
  match force_fresh, registry with
  | false, some p => (p, some p)
  | _, _ => (fresh, some fresh)

/-- The observable actions of `Server.migrate_host_and_shutdown`, in program
order. -/
inductive MigAction where
  | portWrite (port : Nat)
  | sendBecomeHost (sid : Nat)
  | closeServer
  | closeClient (sid : Nat)
  deriving DecidableEq, Repr

/-- Whether a migration action is the `become_host` send. -/
def isBecomeHost : MigAction → Bool
  | MigAction.sendBecomeHost _ => true
  | _ => false

/-- Whether a migration action writes the port registry. -/
def isPortWrite : MigAction → Bool
  | MigAction.portWrite _ => true
  | _ => false

/-- `Server.migrate_host_and_shutdown`: the host candidates are the roster
members whose `idb_path` differs from `self.core.client.idb_path`.  When
some exist, a fresh port is forced into the registry, then the first
candidate is sent `become_host`; in all cases the server socket and every
client connection are closed.  The Python set iteration order is
determinised as roster list order.  Result: the action trace and the
registry contents afterwards. -/
def migrate_host_and_shutdown (st : HubState) (clientIdbPath : Option String)
    (registry : Option Nat) (fresh : Nat) : List MigAction × Option Nat :=
  let closes := MigAction.closeServer ::
    st.clients.map (fun c => MigAction.closeClient c.sid)
  match st.clients.filter (fun x => x.idb_path ≠ clientIdbPath) with
  | [] => (closes, registry)
  | elected :: _ =>
    let r := read_or_generate_server_port registry fresh true
    (MigAction.portWrite r.1 :: MigAction.sendBecomeHost elected.sid :: closes,
     r.2)

/-- An externally visible event driving the hub: a transport-level accept,
an inbound message dispatched on some connection, or a transport close. -/
inductive Event where
  | connect (sid : Nat)
  | identify (sid : Nat) (input_file idb_path : String)
  | disconnect (sid : Nat)
  | focusSymbolMsg (sid : Nat) (symbol : String)
  | focusInstanceMsg (sid : Nat) (idb_path : String)
  | analysisStateMsg (sid : Nat) (state : String)
  | syncTypesMsg (sid : Nat) (purge_non_indexed : Bool)
  deriving DecidableEq, Repr

/-- A hub execution: the hub state plus the cumulative logs of packets
sent, instances spawned and diagnostics printed. -/
structure ExecState where
  hub : HubState
  sent : List (Nat × Packet)
  spawns : List String
  diags : List Diag
  deriving DecidableEq, Repr

/-- The initial hub: empty roster, empty routing table, empty delayed
store (`Server.__init__`). -/
def initExec : ExecState :=
  ⟨⟨[], [], []⟩, [], [], []⟩

/-- One event step of the hub.  `connect` models `Server.handle_accept`
building a fresh `ClientConnection` (connection ids are unique, so a
duplicate id is ignored).  `identify` mutates the session and rebuilds the
routing table even when the delayed-delivery assertion fails, since in
Python the assignment precedes the assertion.  Message events on unknown
connection ids are ignored: handlers only run on live connections. -/
def stepEv (index : String → Option String) (ex : ExecState) (e : Event) :
    ExecState :=
  match e with
  | Event.connect sid =>
    match findSession ex.hub.clients sid with
    | some _ => ex
    | none =>
      { ex with hub :=
        { ex.hub with clients := ex.hub.clients ++ [⟨sid, none, none⟩] } }
  | Event.identify sid input_file idb_path =>
    match findSession ex.hub.clients sid with
    | none => ex
    | some _ =>
      let hub2 := applyIdentify ex.hub sid input_file idb_path
      match handle_msg_new_client ex.hub sid input_file idb_path with
      | some (_, out) => { ex with hub := hub2, sent := ex.sent ++ out }
      | none => { ex with hub := hub2 }
  | Event.disconnect sid =>
    match findSession ex.hub.clients sid with
    | none => ex
    | some _ => { ex with hub := handle_close ex.hub sid }
  | Event.focusSymbolMsg sid symbol =>
    match findSession ex.hub.clients sid with
    | none => ex
    | some _ =>
      let r := handle_msg_focus_symbol index ex.hub symbol
      { ex with hub := r.1, sent := ex.sent ++ r.2.1,
                spawns := ex.spawns ++
                  (if r.2.2.1 then [(index symbol).getD ""] else []),
                diags := ex.diags ++ r.2.2.2 }
  | Event.focusInstanceMsg sid idb_path =>
    match findSession ex.hub.clients sid with
    | none => ex
    | some _ =>
      let r := handle_msg_focus_instance ex.hub idb_path
      { ex with hub := r.1, sent := ex.sent ++ r.2.1,
                spawns := ex.spawns ++ (if r.2.2 then [idb_path] else []) }
  | Event.analysisStateMsg sid state =>
    match findSession ex.hub.clients sid with
    | none => ex
    | some _ =>
      let r := handle_msg_update_analysis_state ex.hub sid state
      { ex with hub := r.1, sent := ex.sent ++ r.2 }
  | Event.syncTypesMsg sid purge =>
    match findSession ex.hub.clients sid with
    | none => ex
    | some _ =>
      let r := handle_msg_sync_types ex.hub sid purge
      { ex with hub := r.1, sent := ex.sent ++ r.2 }

/-- Run the hub over a whole event trace from the initial state. -/
def run (index : String → Option String) (es : List Event) : ExecState :=
  es.foldl (stepEv index) initExec

/-- The routing table held by the hub coincides with the dict comprehension
recomputed from the current roster. -/
def goodMap (st : HubState) : Prop :=
  st.idb_client_map = update_idb_client_map st.clients

/-! ### Association-list lemmas -/

lemma lookupMap_nil (k : String) : lookupMap [] k = none := rfl

lemma lookupMap_cons (k' : String) (v' : Nat) (m : List (String × Nat))
    (k : String) :
    lookupMap ((k', v') :: m) k = if k' = k then some v' else lookupMap m k := by
  by_cases h : k' = k <;> simp [lookupMap, h]

lemma lookup_mapInsert_self (m : List (String × Nat)) (k : String) (v : Nat) :
    lookupMap (mapInsert m k v) k = some v := by
  induction m with
  | nil => simp [mapInsert, lookupMap_cons]
  | cons e rest ih =>
    obtain ⟨k', v'⟩ := e
    by_cases h : k' = k
    · simp [mapInsert, h, lookupMap_cons]
    · simp [mapInsert, h, lookupMap_cons, ih]

lemma lookup_mapInsert_ne (m : List (String × Nat)) (k k' : String) (v : Nat)
    (h : k' ≠ k) : lookupMap (mapInsert m k v) k' = lookupMap m k' := by
  have hne : ¬k = k' := fun hh => h hh.symm
  induction m with
  | nil => simp [mapInsert, lookupMap_cons, hne, lookupMap_nil]
  | cons e rest ih =>
    obtain ⟨k₀, v₀⟩ := e
    by_cases h₀ : k₀ = k
    · subst h₀
      simp [mapInsert, lookupMap_cons, hne]
    · simp [mapInsert, h₀, lookupMap_cons, ih]

lemma lookup_mapStep_ne (m : List (String × Nat)) (x : Session) (p : String)
    (h : x.idb_path ≠ some p) : lookupMap (mapStep m x) p = lookupMap m p := by
  unfold mapStep
  match hx : x.idb_path with
  | none => rfl
  | some q =>
    have hq : p ≠ q := by
      intro hpq
      exact h (hpq ▸ hx)
    exact lookup_mapInsert_ne m q p x.sid hq

lemma lookup_foldl_of_not_mem (p : String) :
    ∀ (cs : List Session) (m : List (String × Nat)),
      (∀ c ∈ cs, c.idb_path ≠ some p) →
      lookupMap (cs.foldl mapStep m) p = lookupMap m p := by
  intro cs
  induction cs with
  | nil => intro m _; rfl
  | cons a cs ih =>
    intro m h
    have ha : a.idb_path ≠ some p := h a (List.mem_cons_self a cs)
    have hcs : ∀ c ∈ cs, c.idb_path ≠ some p :=
      fun c hc => h c (List.mem_cons_of_mem a hc)
    calc lookupMap ((a :: cs).foldl mapStep m) p
        = lookupMap (cs.foldl mapStep (mapStep m a)) p := rfl
      _ = lookupMap (mapStep m a) p := ih (mapStep m a) hcs
      _ = lookupMap m p := lookup_mapStep_ne m a p ha

lemma lookup_foldl_some (p : String) (sid : Nat) :
    ∀ (cs : List Session) (m : List (String × Nat)),
      lookupMap (cs.foldl mapStep m) p = some sid →
      (∃ c ∈ cs, c.sid = sid ∧ c.idb_path = some p) ∨ lookupMap m p = some sid := by
  intro cs
  induction cs with
  | nil => intro m h; exact Or.inr h
  | cons a cs ih =>
    intro m h
    rcases ih (mapStep m a) h with hmem | hacc
    · obtain ⟨c, hc, hcs, hcp⟩ := hmem
      exact Or.inl ⟨c, List.mem_cons_of_mem a hc, hcs, hcp⟩
    · match ha : a.idb_path with
      | none =>
        refine Or.inr ?_
        rw [mapStep, ha] at hacc
        exact hacc
      | some q =>
        by_cases hqp : q = p
        · subst hqp
          rw [mapStep, ha, lookup_mapInsert_self] at hacc
          exact Or.inl ⟨a, List.mem_cons_self a cs, Option.some.inj hacc, ha⟩
        · refine Or.inr ?_
          rw [mapStep, ha,
            lookup_mapInsert_ne m q p a.sid (fun hh => hqp hh.symm)] at hacc
          exact hacc

lemma lookup_foldl_unique (p : String) :
    ∀ (cs : List Session) (m : List (String × Nat)) (c : Session),
      c ∈ cs → c.idb_path = some p →
      (cs.filterMap Session.idb_path).Nodup →
      lookupMap (cs.foldl mapStep m) p = some c.sid := by
  intro cs
  induction cs with
  | nil => intro m c hc; exact absurd hc (List.not_mem_nil c)
  | cons a cs ih =>
    intro m c hc hcp hnd
    rcases List.mem_cons.mp hc with rfl | hmem
    · have hrest : ∀ c' ∈ cs, c'.idb_path ≠ some p := by
        intro c' hc' hc'p
        rw [List.filterMap_cons, hcp] at hnd
        have hnd2 : (p :: cs.filterMap Session.idb_path).Nodup := hnd
        exact (List.nodup_cons.mp hnd2).1 (List.mem_filterMap.mpr ⟨c', hc', hc'p⟩)
      calc lookupMap ((c :: cs).foldl mapStep m) p
          = lookupMap (cs.foldl mapStep (mapStep m c)) p := rfl
        _ = lookupMap (mapStep m c) p :=
            lookup_foldl_of_not_mem p cs (mapStep m c) hrest
        _ = some c.sid := by rw [mapStep, hcp, lookup_mapInsert_self]
    · have hnd' : (cs.filterMap Session.idb_path).Nodup := by
        rw [List.filterMap_cons] at hnd
        cases ha : a.idb_path with
        | none =>
          rw [ha] at hnd
          exact hnd
        | some q =>
          rw [ha] at hnd
          have hnd2 : (q :: cs.filterMap Session.idb_path).Nodup := hnd
          exact (List.nodup_cons.mp hnd2).2
      exact ih (mapStep m a) c hmem hcp hnd'

lemma lookup_empty (p : String) : lookupMap [] p = none := rfl

lemma lookup_update_some (clients : List Session) (p : String) (sid : Nat)
    (h : lookupMap (update_idb_client_map clients) p = some sid) :
    ∃ c ∈ clients, c.sid = sid ∧ c.idb_path = some p := by
  rcases lookup_foldl_some p sid clients [] h with hmem | habs
  · exact hmem
  · exact absurd habs (by simp [lookup_empty])

lemma lookup_update_of_mem (clients : List Session) (p : String) (c : Session)
    (hc : c ∈ clients) (hcp : c.idb_path = some p)
    (hnd : (clients.filterMap Session.idb_path).Nodup) :
    lookupMap (update_idb_client_map clients) p = some c.sid :=
  lookup_foldl_unique p clients [] c hc hcp hnd

/-! ### Delayed-store and handler lemmas -/

lemma delayedGet_nil (p : String) : delayedGet [] p = [] := rfl

lemma delayedGet_cons (k : String) (q : List Packet)
    (d : List (String × List Packet)) (p : String) :
    delayedGet ((k, q) :: d) p = if k = p then q else delayedGet d p := by
  by_cases h : k = p <;> simp [delayedGet, h]

lemma delayedGet_queue_self (d : List (String × List Packet)) (p : String)
    (pkt : Packet) :
    delayedGet (queue_delayed_packet d p pkt) p = delayedGet d p ++ [pkt] := by
  induction d with
  | nil => simp [queue_delayed_packet, delayedGet_cons, delayedGet_nil]
  | cons e rest ih =>
    obtain ⟨k, q⟩ := e
    by_cases h : k = p
    · subst h
      simp [queue_delayed_packet, delayedGet_cons]
    · simp [queue_delayed_packet, h, delayedGet_cons, ih]

lemma delayedGet_queue_ne (d : List (String × List Packet)) (p p' : String)
    (pkt : Packet) (h : p' ≠ p) :
    delayedGet (queue_delayed_packet d p pkt) p' = delayedGet d p' := by
  have hne : ¬p = p' := fun hh => h hh.symm
  induction d with
  | nil => simp [queue_delayed_packet, delayedGet_cons, delayedGet_nil, hne]
  | cons e rest ih =>
    obtain ⟨k, q⟩ := e
    by_cases hk : k = p
    · subst hk
      simp [queue_delayed_packet, delayedGet_cons, hne]
    · simp [queue_delayed_packet, hk, delayedGet_cons, ih]

lemma findSession_sid (clients : List Session) (sid : Nat) (c : Session)
    (h : findSession clients sid = some c) : c.sid = sid := by
  have := List.find?_some h
  simpa using this

lemma findSession_mem (clients : List Session) (sid : Nat) (c : Session)
    (h : findSession clients sid = some c) : c ∈ clients :=
  List.mem_of_find?_eq_some h

lemma applyIdentify_delayed (st : HubState) (sid : Nat)
    (input_file idb_path : String) :
    (applyIdentify st sid input_file idb_path).delayed = st.delayed := by
  unfold applyIdentify
  cases h : findSession st.clients sid <;> rfl

/-- The heart of the identify path: when the connection is live and the new
identifier is a non-empty string, `handle_msg_new_client` succeeds, performs
exactly the state change of `applyIdentify`, and sends to the identifying
client precisely the packets stored under its identifier, in store order. -/
lemma handle_msg_new_client_spec (st : HubState) (sid : Nat) (c : Session)
    (input_file idb_path : String)
    (hc : findSession st.clients sid = some c) (hp : idb_path ≠ "") :
    handle_msg_new_client st sid input_file idb_path =
      some (applyIdentify st sid input_file idb_path,
        (delayedGet st.delayed idb_path).map (fun pkt => (sid, pkt))) := by
  have hsid : c.sid = sid := findSession_sid st.clients sid c hc
  unfold handle_msg_new_client applyIdentify
  rw [hc]
  simp [process_delayed_packets, identifiedSession, hp, hsid]

/-! ### Routing-table freshness invariant over whole executions -/

lemma update_append_unidentified (clients : List Session) (sid : Nat) :
    update_idb_client_map (clients ++ [⟨sid, none, none⟩]) =
      update_idb_client_map clients := by
  unfold update_idb_client_map
  rw [List.foldl_append]
  rfl

lemma send_or_delay_clients (st : HubState) (p : String) (pkt : Packet) :
    (send_or_delay_packet st p pkt).1.clients = st.clients := by
  unfold send_or_delay_packet
  cases lookupMap st.idb_client_map p <;> rfl

lemma send_or_delay_map (st : HubState) (p : String) (pkt : Packet) :
    (send_or_delay_packet st p pkt).1.idb_client_map = st.idb_client_map := by
  unfold send_or_delay_packet
  cases lookupMap st.idb_client_map p <;> rfl

lemma focus_symbol_clients (index : String → Option String) (st : HubState)
    (symbol : String) :
    (handle_msg_focus_symbol index st symbol).1.clients = st.clients := by
  unfold handle_msg_focus_symbol
  cases index symbol with
  | none => rfl
  | some q => exact send_or_delay_clients st q (Packet.focusSymbol symbol)

lemma focus_symbol_map (index : String → Option String) (st : HubState)
    (symbol : String) :
    (handle_msg_focus_symbol index st symbol).1.idb_client_map =
      st.idb_client_map := by
  unfold handle_msg_focus_symbol
  cases index symbol with
  | none => rfl
  | some q => exact send_or_delay_map st q (Packet.focusSymbol symbol)

lemma analysis_state_fst (st : HubState) (sid : Nat) (state : String) :
    (handle_msg_update_analysis_state st sid state).1 = st := by
  unfold handle_msg_update_analysis_state
  cases findSession st.clients sid <;> rfl

lemma sync_types_fst (st : HubState) (sid : Nat) (purge : Bool) :
    (handle_msg_sync_types st sid purge).1 = st := by
  unfold handle_msg_sync_types
  cases findSession st.clients sid <;> rfl

lemma applyIdentify_goodMap (st : HubState) (sid : Nat)
    (input_file idb_path : String) (h : goodMap st) :
    goodMap (applyIdentify st sid input_file idb_path) := by
  unfold applyIdentify
  cases hf : findSession st.clients sid with
  | none => exact h
  | some c => exact rfl

lemma handle_close_goodMap (st : HubState) (sid : Nat) :
    goodMap (handle_close st sid) := rfl

lemma stepEv_goodMap (index : String → Option String) (ex : ExecState)
    (e : Event) (h : goodMap ex.hub) : goodMap (stepEv index ex e).hub := by
  cases e with
  | connect sid =>
    cases hf : findSession ex.hub.clients sid with
    | some c => simpa [stepEv, hf] using h
    | none =>
      unfold goodMap at h ⊢
      simp only [stepEv, hf]
      rw [update_append_unidentified]
      exact h
  | identify sid input_file idb_path =>
    cases hf : findSession ex.hub.clients sid with
    | none => simpa [stepEv, hf] using h
    | some c =>
      have hgood := applyIdentify_goodMap ex.hub sid input_file idb_path h
      cases hm : handle_msg_new_client ex.hub sid input_file idb_path with
      | none => simpa [stepEv, hf, hm] using hgood
      | some r =>
        obtain ⟨st2, out⟩ := r
        simpa [stepEv, hf, hm] using hgood
  | disconnect sid =>
    cases hf : findSession ex.hub.clients sid with
    | none => simpa [stepEv, hf] using h
    | some c =>
      simpa [stepEv, hf] using handle_close_goodMap ex.hub sid
  | focusSymbolMsg sid symbol =>
    cases hf : findSession ex.hub.clients sid with
    | none => simpa [stepEv, hf] using h
    | some c =>
      unfold goodMap at h ⊢
      simp only [stepEv, hf]
      rw [focus_symbol_map index ex.hub symbol,
        focus_symbol_clients index ex.hub symbol]
      exact h
  | focusInstanceMsg sid idb_path =>
    cases hf : findSession ex.hub.clients sid with
    | none => simpa [stepEv, hf] using h
    | some c =>
      unfold goodMap at h ⊢
      simp only [stepEv, hf, handle_msg_focus_instance]
      rw [send_or_delay_map, send_or_delay_clients]
      exact h
  | analysisStateMsg sid state =>
    cases hf : findSession ex.hub.clients sid with
    | none => simpa [stepEv, hf] using h
    | some c =>
      unfold goodMap at h ⊢
      simp only [stepEv, hf]
      rw [analysis_state_fst]
      exact h
  | syncTypesMsg sid purge =>
    cases hf : findSession ex.hub.clients sid with
    | none => simpa [stepEv, hf] using h
    | some c =>
      unfold goodMap at h ⊢
      simp only [stepEv, hf]
      rw [sync_types_fst]
      exact h

lemma foldl_goodMap (index : String → Option String) :
    ∀ (es : List Event) (ex : ExecState), goodMap ex.hub →
      goodMap ((es.foldl (stepEv index) ex)).hub := by
  intro es
  induction es with
  | nil => intro ex h; exact h
  | cons e es ih =>
    intro ex h
    exact ih (stepEv index ex e) (stepEv_goodMap index ex e h)

/-- In every reachable hub state, the routing table is exactly the rebuild
from the current roster: it is never stale. -/
lemma run_goodMap (index : String → Option String) (es : List Event) :
    goodMap (run index es).hub :=
  foldl_goodMap index es initExec rfl

/-! ### Broadcast and migration lemmas -/

lemma broadcast_packet_sound (st : HubState) (sender : Nat) (pkt : Packet) :
    ∀ e ∈ broadcast_packet st sender pkt,
      e.1 ≠ sender ∧ ∃ cc ∈ st.clients, e = (cc.sid, pkt) := by
  intro e he
  simp only [broadcast_packet, List.mem_map, List.mem_filter] at he
  obtain ⟨cc, ⟨hmem, hne⟩, rfl⟩ := he
  exact ⟨by simpa using hne, cc, hmem, rfl⟩

lemma broadcast_packet_complete (st : HubState) (sender : Nat) (pkt : Packet) :
    ∀ cc ∈ st.clients, cc.sid ≠ sender →
      (cc.sid, pkt) ∈ broadcast_packet st sender pkt := by
  intro cc hmem hne
  simp only [broadcast_packet, List.mem_map, List.mem_filter]
  exact ⟨cc, ⟨hmem, by simpa using hne⟩, rfl⟩

lemma countP_closes_becomeHost (l : List Session) :
    (MigAction.closeServer ::
      l.map (fun c => MigAction.closeClient c.sid)).countP isBecomeHost = 0 := by
  induction l with
  | nil => rfl
  | cons a l ih =>
    simp [List.countP_cons, isBecomeHost, ih]

lemma countP_closes_portWrite (l : List Session) :
    (MigAction.closeServer ::
      l.map (fun c => MigAction.closeClient c.sid)).countP isPortWrite = 0 := by
  induction l with
  | nil => rfl
  | cons a l ih =>
    simp [List.countP_cons, isPortWrite, ih]

/-! ### Claim theorems -/

/-- C1, amended: a targeted message dispatched while its addressee
identifier is absent from the routing table is appended to the delayed
queue under that identifier (and nothing is sent); when a session later
identifies with that identifier, every message queued for it is delivered
in original enqueue order — but the queue for that identifier is not
cleared: the delayed store is left entirely unchanged by the drain. -/
theorem targeted_absent_queued_and_drain_keeps_store :
    (∀ (st : HubState) (p : String) (pkt : Packet),
      lookupMap st.idb_client_map p = none →
      (send_or_delay_packet st p pkt).2.1 = [] ∧
      delayedGet (send_or_delay_packet st p pkt).1.delayed p =
        delayedGet st.delayed p ++ [pkt]) ∧
    (∀ (st : HubState) (sid : Nat) (c : Session) (input_file idb_path : String),
      findSession st.clients sid = some c → idb_path ≠ "" →
      handle_msg_new_client st sid input_file idb_path =
        some (applyIdentify st sid input_file idb_path,
          (delayedGet st.delayed idb_path).map (fun pkt => (sid, pkt))) ∧
      (applyIdentify st sid input_file idb_path).delayed = st.delayed) := by
  constructor
  · intro st p pkt h
    refine ⟨by simp [send_or_delay_packet, h], ?_⟩
    simp [send_or_delay_packet, h, delayedGet_queue_self]
  · intro st sid c input_file idb_path hc hp
    exact ⟨handle_msg_new_client_spec st sid c input_file idb_path hc hp,
      applyIdentify_delayed st sid input_file idb_path⟩

/-- Witness for C1 at a concrete hub state: queueing to the absent
identifier `/d`, then draining it from a freshly identifying session. -/
theorem targeted_absent_queued_and_drain_keeps_store_witness :
    ((send_or_delay_packet ⟨[], [], []⟩ "/d" Packet.focusInstance).2.1 = [] ∧
     delayedGet
       (send_or_delay_packet ⟨[], [], []⟩ "/d" Packet.focusInstance).1.delayed
       "/d" =
       delayedGet (⟨[], [], []⟩ : HubState).delayed "/d" ++
         [Packet.focusInstance]) ∧
    (handle_msg_new_client
        ⟨[⟨1, none, none⟩], [], [("/d", [Packet.focusInstance])]⟩ 1 "d" "/d" =
       some (applyIdentify
           ⟨[⟨1, none, none⟩], [], [("/d", [Packet.focusInstance])]⟩ 1 "d" "/d",
         (delayedGet
           (⟨[⟨1, none, none⟩], [], [("/d", [Packet.focusInstance])]⟩ :
             HubState).delayed "/d").map (fun pkt => (1, pkt))) ∧
     (applyIdentify
         ⟨[⟨1, none, none⟩], [], [("/d", [Packet.focusInstance])]⟩
         1 "d" "/d").delayed =
       (⟨[⟨1, none, none⟩], [], [("/d", [Packet.focusInstance])]⟩ :
         HubState).delayed) :=
  ⟨targeted_absent_queued_and_drain_keeps_store.1 ⟨[], [], []⟩ "/d"
      Packet.focusInstance rfl,
   targeted_absent_queued_and_drain_keeps_store.2
      ⟨[⟨1, none, none⟩], [], [("/d", [Packet.focusInstance])]⟩ 1
      ⟨1, none, none⟩ "d" "/d" rfl (by decide)⟩

/-- C1 counterexample: a `focus_instance` for absent `/d` is queued, session
1 then identifies as `/d` and receives it, yet the queue for `/d` still
holds the message afterwards — the claim that the queue is empty after the
drain is false. -/
theorem drain_leaves_queue_nonempty_cex :
    (run (fun _ => none)
      [Event.connect 0, Event.identify 0 "a" "/a",
       Event.focusInstanceMsg 0 "/d", Event.connect 1,
       Event.identify 1 "d" "/d"]).sent = [(1, Packet.focusInstance)] ∧
    delayedGet
      (run (fun _ => none)
        [Event.connect 0, Event.identify 0 "a" "/a",
         Event.focusInstanceMsg 0 "/d", Event.connect 1,
         Event.identify 1 "d" "/d"]).hub.delayed "/d" =
      [Packet.focusInstance] :=
  ⟨rfl, rfl⟩

/-- C2, amended: within each drain the delayed entries for an identifier
are delivered in store (FIFO) order, so no entry is delivered before an
earlier one — but an entry is not delivered at most once over the whole
execution: since the store is never cleared, a later identify with the
same identifier delivers the very same entries again. -/
theorem drain_fifo_but_redelivered_on_reidentify
    (st : HubState) (sid sid' : Nat) (c c' : Session)
    (input_file input_file' p : String) (st1 st2 : HubState)
    (sent1 sent2 : List (Nat × Packet))
    (hc : findSession st.clients sid = some c) (hp : p ≠ "")
    (h1 : handle_msg_new_client st sid input_file p = some (st1, sent1))
    (hc' : findSession st1.clients sid' = some c')
    (h2 : handle_msg_new_client st1 sid' input_file' p = some (st2, sent2)) :
    sent1 = (delayedGet st.delayed p).map (fun pkt => (sid, pkt)) ∧
    sent2 = (delayedGet st.delayed p).map (fun pkt => (sid', pkt)) := by
  have hs1 := handle_msg_new_client_spec st sid c input_file p hc hp
  have he1 := Option.some.inj (h1.symm.trans hs1)
  have hst1 : st1 = applyIdentify st sid input_file p := congrArg Prod.fst he1
  have hsent1 : sent1 = (delayedGet st.delayed p).map (fun pkt => (sid, pkt)) :=
    congrArg Prod.snd he1
  have hs2 := handle_msg_new_client_spec st1 sid' c' input_file' p hc' hp
  have he2 := Option.some.inj (h2.symm.trans hs2)
  have hsent2 : sent2 =
      (delayedGet st1.delayed p).map (fun pkt => (sid', pkt)) :=
    congrArg Prod.snd he2
  have hdel : st1.delayed = st.delayed := by
    rw [hst1]
    exact applyIdentify_delayed st sid input_file p
  exact ⟨hsent1, by rw [hsent2, hdel]⟩

/-- Witness for C2: two sessions identify as `/d` one after the other and
each receives the single stored packet. -/
theorem drain_fifo_but_redelivered_on_reidentify_witness :
    [(1, Packet.focusInstance)] =
      (delayedGet [("/d", [Packet.focusInstance])] "/d").map
        (fun pkt => ((1 : Nat), pkt)) ∧
    [(2, Packet.focusInstance)] =
      (delayedGet [("/d", [Packet.focusInstance])] "/d").map
        (fun pkt => ((2 : Nat), pkt)) :=
  drain_fifo_but_redelivered_on_reidentify
    ⟨[⟨1, none, none⟩, ⟨2, none, none⟩], [], [("/d", [Packet.focusInstance])]⟩
    1 2 ⟨1, none, none⟩ ⟨2, none, none⟩ "d" "d" "/d"
    ⟨[⟨1, some "d", some "/d"⟩, ⟨2, none, none⟩], [("/d", 1)],
      [("/d", [Packet.focusInstance])]⟩
    ⟨[⟨1, some "d", some "/d"⟩, ⟨2, some "d", some "/d"⟩], [("/d", 2)],
      [("/d", [Packet.focusInstance])]⟩
    [(1, Packet.focusInstance)] [(2, Packet.focusInstance)]
    rfl (by decide) rfl rfl rfl

/-- C2 counterexample: one targeted message is queued for `/d` (exactly one
spawn shows exactly one enqueue); session 1 identifies as `/d`, disconnects,
then session 2 identifies as `/d` — the single delayed entry is delivered
twice, refuting delivery-at-most-once over the whole execution. -/
theorem delayed_entry_delivered_twice_cex :
    (run (fun _ => none)
      [Event.connect 0, Event.identify 0 "a" "/a",
       Event.focusInstanceMsg 0 "/d", Event.connect 1,
       Event.identify 1 "d" "/d", Event.disconnect 1, Event.connect 2,
       Event.identify 2 "d" "/d"]).spawns = ["/d"] ∧
    (run (fun _ => none)
      [Event.connect 0, Event.identify 0 "a" "/a",
       Event.focusInstanceMsg 0 "/d", Event.connect 1,
       Event.identify 1 "d" "/d", Event.disconnect 1, Event.connect 2,
       Event.identify 2 "d" "/d"]).sent =
      [(1, Packet.focusInstance), (2, Packet.focusInstance)] :=
  ⟨rfl, rfl⟩

/-- C7, confirmed: when the index cannot resolve a `focus_symbol` message,
the handler emits the local diagnostic and drops the message — the hub
state (including the delayed store) is unchanged, nothing is sent and no
instance is spawned. -/
theorem focus_symbol_unresolved_dropped (index : String → Option String)
    (st : HubState) (symbol : String) (h : index symbol = none) :
    handle_msg_focus_symbol index st symbol =
      (st, [], false, [Diag.symbolNotFound symbol]) := by
  simp [handle_msg_focus_symbol, h]

/-- Witness for C7 at a concrete state and an index that knows nothing. -/
theorem focus_symbol_unresolved_dropped_witness :
    handle_msg_focus_symbol (fun _ => none)
        ⟨[⟨0, some "a", some "/a"⟩], [("/a", 0)], []⟩ "foo" =
      (⟨[⟨0, some "a", some "/a"⟩], [("/a", 0)], []⟩, [], false,
        [Diag.symbolNotFound "foo"]) :=
  focus_symbol_unresolved_dropped (fun _ => none)
    ⟨[⟨0, some "a", some "/a"⟩], [("/a", 0)], []⟩ "foo" rfl

/-- C9, confirmed: for every call the hub makes — `process_delayed_packets`
is reached only from `handle_msg_new_client`, after `idb_path` was assigned
from the `new_peer` message — the truthiness assertion on the draining
client's `idb_path` holds, provided the identifying message carries a
non-empty `idb_path`: the handler always returns a result instead of
failing the assertion. -/
theorem process_delayed_assert_holds (st : HubState) (sid : Nat) (c : Session)
    (input_file idb_path : String)
    (hc : findSession st.clients sid = some c) (hp : idb_path ≠ "") :
    (handle_msg_new_client st sid input_file idb_path).isSome = true := by
  rw [handle_msg_new_client_spec st sid c input_file idb_path hc hp]
  rfl

/-- Witness for C9 on a one-session roster. -/
theorem process_delayed_assert_holds_witness :
    (handle_msg_new_client ⟨[⟨5, none, none⟩], [], []⟩ 5 "x" "/x").isSome =
      true :=
  process_delayed_assert_holds ⟨[⟨5, none, none⟩], [], []⟩ 5 ⟨5, none, none⟩
    "x" "/x" rfl (by decide)

/-- C3, amended: under every interleaving of connect, identify and
disconnect events (message events included) in which no two simultaneously
live sessions carry the same identifier, the routing table is never stale:
it always equals the rebuild from the roster, and it contains exactly the
currently connected sessions whose identifier is set, keyed by that
identifier. -/
theorem routing_table_exact_when_identifiers_distinct
    (index : String → Option String) (es : List Event)
    (hnd : ((run index es).hub.clients.filterMap Session.idb_path).Nodup) :
    (run index es).hub.idb_client_map =
      update_idb_client_map (run index es).hub.clients ∧
    ∀ p sid, lookupMap (run index es).hub.idb_client_map p = some sid ↔
      ∃ c ∈ (run index es).hub.clients, c.sid = sid ∧ c.idb_path = some p := by
  have hg := run_goodMap index es
  refine ⟨hg, fun p sid => ⟨fun h => ?_, fun h => ?_⟩⟩
  · rw [hg] at h
    exact lookup_update_some _ p sid h
  · obtain ⟨c, hc, hcs, hcp⟩ := h
    rw [hg, lookup_update_of_mem _ p c hc hcp hnd, hcs]

/-- Witness for C3: a single connect-then-identify trace. -/
theorem routing_table_exact_when_identifiers_distinct_witness :
    (run (fun _ => none)
        [Event.connect 0, Event.identify 0 "a" "/a"]).hub.idb_client_map =
      update_idb_client_map
        (run (fun _ => none)
          [Event.connect 0, Event.identify 0 "a" "/a"]).hub.clients ∧
    ∃ c ∈ (run (fun _ => none)
        [Event.connect 0, Event.identify 0 "a" "/a"]).hub.clients,
      c.sid = 0 ∧ c.idb_path = some "/a" := by
  have h := routing_table_exact_when_identifiers_distinct (fun _ => none)
    [Event.connect 0, Event.identify 0 "a" "/a"] (by decide)
  exact ⟨h.1, (h.2 "/a" 0).mp rfl⟩

/-- C3 counterexample: two connected sessions both identify as `/p`; both
are live and identified, but the routing table holds a single entry mapping
`/p` to session 1 — session 0 is connected, identified, and absent from the
table, so the table does not contain exactly the connected identified
sessions. -/
theorem routing_table_misses_duplicate_session_cex :
    (run (fun _ => none)
      [Event.connect 0, Event.connect 1, Event.identify 0 "p" "/p",
       Event.identify 1 "p" "/p"]).hub.clients =
      [⟨0, some "p", some "/p"⟩, ⟨1, some "p", some "/p"⟩] ∧
    (run (fun _ => none)
      [Event.connect 0, Event.connect 1, Event.identify 0 "p" "/p",
       Event.identify 1 "p" "/p"]).hub.idb_client_map = [("/p", 1)] :=
  ⟨rfl, rfl⟩

/-- C8, amended: each routing-table entry designates exactly one live
session, and that session is connected and carries the entry's identifier —
so at most one session is routable per identifier.  The stronger claim that
no two simultaneously live sessions carry the same non-null `idb_path` is
false: nothing prevents a second session from identifying with an
identifier already in use (see the counterexample). -/
theorem routing_entry_is_live_session_with_identifier
    (index : String → Option String) (es : List Event) (p : String) (sid : Nat)
    (h : lookupMap (run index es).hub.idb_client_map p = some sid) :
    ∃ c ∈ (run index es).hub.clients, c.sid = sid ∧ c.idb_path = some p := by
  have hg := run_goodMap index es
  rw [hg] at h
  exact lookup_update_some _ p sid h

/-- Witness for C8: the routing entry for `/b` after session 3 identifies. -/
theorem routing_entry_is_live_session_with_identifier_witness :
    ∃ c ∈ (run (fun _ => none)
        [Event.connect 3, Event.identify 3 "b" "/b"]).hub.clients,
      c.sid = 3 ∧ c.idb_path = some "/b" :=
  routing_entry_is_live_session_with_identifier (fun _ => none)
    [Event.connect 3, Event.identify 3 "b" "/b"] "/b" 3 rfl

/-- C8 counterexample: a reachable state with two simultaneously live
sessions (ids 0 and 1) both carrying the non-null identifier `/p`. -/
theorem two_live_sessions_share_identifier_cex :
    (run (fun _ => none)
      [Event.connect 0, Event.connect 1, Event.identify 0 "p" "/p",
       Event.identify 1 "p" "/p"]).hub.clients.map Session.idb_path =
      [some "/p", some "/p"] ∧
    (run (fun _ => none)
      [Event.connect 0, Event.connect 1, Event.identify 0 "p" "/p",
       Event.identify 1 "p" "/p"]).hub.clients.map Session.sid = [0, 1] :=
  ⟨rfl, rfl⟩

/-- C4, amended: a broadcast (`analysis_state_updated` or `sync_types`) is
delivered to every connected session except the sender — the sender never
receives its own broadcast, nothing is queued (the hub state is unchanged),
but recipients are not restricted to identified peers: every live session,
identified or not, receives it. -/
theorem broadcast_skips_sender_hits_all_connected
    (st : HubState) (sid : Nat) (c : Session) (state : String) (purge : Bool)
    (st1 st2 : HubState) (out1 out2 : List (Nat × Packet))
    (hc : findSession st.clients sid = some c)
    (h1 : handle_msg_update_analysis_state st sid state = (st1, out1))
    (h2 : handle_msg_sync_types st sid purge = (st2, out2)) :
    st1 = st ∧ st2 = st ∧
    (∀ e ∈ out1, e.1 ≠ sid) ∧ (∀ e ∈ out2, e.1 ≠ sid) ∧
    (∀ cc ∈ st.clients, cc.sid ≠ sid →
      (cc.sid, Packet.analysisStateUpdated c.idb_path state) ∈ out1 ∧
      (cc.sid, Packet.syncTypes purge) ∈ out2) ∧
    (∀ e ∈ out1, ∃ cc ∈ st.clients,
      e = (cc.sid, Packet.analysisStateUpdated c.idb_path state)) ∧
    (∀ e ∈ out2, ∃ cc ∈ st.clients, e = (cc.sid, Packet.syncTypes purge)) := by
  have e1 : handle_msg_update_analysis_state st sid state =
      (st, broadcast_packet st sid
        (Packet.analysisStateUpdated c.idb_path state)) := by
    simp [handle_msg_update_analysis_state, hc]
  have e2 : handle_msg_sync_types st sid purge =
      (st, broadcast_packet st sid (Packet.syncTypes purge)) := by
    simp [handle_msg_sync_types, hc]
  have he1 := (h1.symm.trans e1)
  have he2 := (h2.symm.trans e2)
  have hst1 : st1 = st := congrArg Prod.fst he1
  have hst2 : st2 = st := congrArg Prod.fst he2
  have hout1 : out1 = broadcast_packet st sid
      (Packet.analysisStateUpdated c.idb_path state) := congrArg Prod.snd he1
  have hout2 : out2 = broadcast_packet st sid (Packet.syncTypes purge) :=
    congrArg Prod.snd he2
  subst hout1
  subst hout2
  refine ⟨hst1, hst2, ?_, ?_, ?_, ?_, ?_⟩
  · intro e he
    exact (broadcast_packet_sound st sid _ e he).1
  · intro e he
    exact (broadcast_packet_sound st sid _ e he).1
  · intro cc hmem hne
    exact ⟨broadcast_packet_complete st sid _ cc hmem hne,
      broadcast_packet_complete st sid _ cc hmem hne⟩
  · intro e he
    exact (broadcast_packet_sound st sid _ e he).2
  · intro e he
    exact (broadcast_packet_sound st sid _ e he).2

/-- Witness for C4 on a two-session roster. -/
theorem broadcast_skips_sender_hits_all_connected_witness :
    (⟨[⟨0, some "a", some "/a"⟩, ⟨1, some "b", some "/b"⟩],
        [("/a", 0), ("/b", 1)], []⟩ : HubState) =
      ⟨[⟨0, some "a", some "/a"⟩, ⟨1, some "b", some "/b"⟩],
        [("/a", 0), ("/b", 1)], []⟩ ∧
    ((1 : Nat), Packet.analysisStateUpdated (some "/a") "s") ∈
      [((1 : Nat), Packet.analysisStateUpdated (some "/a") "s")] ∧
    ((1 : Nat), Packet.syncTypes true) ∈ [((1 : Nat), Packet.syncTypes true)] := by
  have h := broadcast_skips_sender_hits_all_connected
    ⟨[⟨0, some "a", some "/a"⟩, ⟨1, some "b", some "/b"⟩],
      [("/a", 0), ("/b", 1)], []⟩
    0 ⟨0, some "a", some "/a"⟩ "s" true
    ⟨[⟨0, some "a", some "/a"⟩, ⟨1, some "b", some "/b"⟩],
      [("/a", 0), ("/b", 1)], []⟩
    ⟨[⟨0, some "a", some "/a"⟩, ⟨1, some "b", some "/b"⟩],
      [("/a", 0), ("/b", 1)], []⟩
    [(1, Packet.analysisStateUpdated (some "/a") "s")]
    [(1, Packet.syncTypes true)]
    rfl rfl rfl
  have hmem := h.2.2.2.2.1 ⟨1, some "b", some "/b"⟩ (by decide) (by decide)
  exact ⟨h.1, hmem.1, hmem.2⟩

/-- C4 counterexample: session 1 is connected but never identified, yet it
receives session 0's `analysis_state_updated` broadcast — refuting that
broadcasts reach identified peers and no other session. -/
theorem broadcast_hits_unidentified_session_cex :
    (run (fun _ => none)
      [Event.connect 0, Event.identify 0 "a" "/a", Event.connect 1,
       Event.analysisStateMsg 0 "s"]).sent =
      [(1, Packet.analysisStateUpdated (some "/a") "s")] ∧
    (run (fun _ => none)
      [Event.connect 0, Event.identify 0 "a" "/a", Event.connect 1,
       Event.analysisStateMsg 0 "s"]).hub.clients.map Session.idb_path =
      [some "/a", none] :=
  ⟨rfl, rfl⟩

/-- C5, amended: when the hub shuts down while at least one session whose
recorded `idb_path` differs from the hub's own client identifier remains,
exactly one `become_host` is sent, its receiver is such a session, and a
freshly drawn random port is persisted before the hand-off (the port write
is the very first action).  The registry afterwards holds the fresh draw —
which the code never compares with the previous value, so it is not
guaranteed to differ from it. -/
theorem migration_single_election_persists_fresh_port
    (st : HubState) (clientIdbPath : Option String) (registry : Option Nat)
    (fresh : Nat) (h : ∃ c ∈ st.clients, c.idb_path ≠ clientIdbPath) :
    (migrate_host_and_shutdown st clientIdbPath registry fresh).2 =
      some fresh ∧
    (migrate_host_and_shutdown st clientIdbPath registry fresh).1.countP
      isBecomeHost = 1 ∧
    (migrate_host_and_shutdown st clientIdbPath registry fresh).1.head? =
      some (MigAction.portWrite fresh) ∧
    ∀ s, MigAction.sendBecomeHost s ∈
        (migrate_host_and_shutdown st clientIdbPath registry fresh).1 →
      ∃ c ∈ st.clients, c.sid = s ∧ c.idb_path ≠ clientIdbPath := by
  obtain ⟨c0, hc0, hne0⟩ := h
  cases hfil : st.clients.filter (fun x => x.idb_path ≠ clientIdbPath) with
  | nil =>
    exfalso
    have hall := List.filter_eq_nil_iff.mp hfil c0 hc0
    simp at hall
    exact hne0 hall
  | cons elected rest =>
    have helmem : elected ∈
        st.clients.filter (fun x => x.idb_path ≠ clientIdbPath) := by
      rw [hfil]
      exact List.mem_cons_self _ _
    have hel := List.mem_filter.mp helmem
    have helne : elected.idb_path ≠ clientIdbPath := by simpa using hel.2
    have hr : read_or_generate_server_port registry fresh true =
        (fresh, some fresh) := by
      cases registry <;> rfl
    have hmig : migrate_host_and_shutdown st clientIdbPath registry fresh =
        (MigAction.portWrite fresh :: MigAction.sendBecomeHost elected.sid ::
          MigAction.closeServer ::
          st.clients.map (fun c => MigAction.closeClient c.sid),
         some fresh) := by
      simp only [migrate_host_and_shutdown]
      rw [hfil]
      rw [show (read_or_generate_server_port registry fresh true) =
        (fresh, some fresh) from hr]
    rw [hmig]
    refine ⟨rfl, ?_, rfl, ?_⟩
    · simp [List.countP_cons, isBecomeHost, countP_closes_becomeHost st.clients]
    · intro s hs
      simp only [List.mem_cons, List.mem_map] at hs
      rcases hs with h1 | h2 | h3 | ⟨cc, _, h4⟩
      · simp at h1
      · injection h2 with hs2
        exact ⟨elected, hel.1, hs2.symm, helne⟩
      · simp at h3
      · simp at h4

/-- Witness for C5 on a roster holding the hub's own client and one peer. -/
theorem migration_single_election_persists_fresh_port_witness :
    (migrate_host_and_shutdown
      ⟨[⟨0, some "h", some "/h"⟩, ⟨1, some "b", some "/b"⟩],
        [("/h", 0), ("/b", 1)], []⟩
      (some "/h") (some 100) 200).2 = some 200 ∧
    (migrate_host_and_shutdown
      ⟨[⟨0, some "h", some "/h"⟩, ⟨1, some "b", some "/b"⟩],
        [("/h", 0), ("/b", 1)], []⟩
      (some "/h") (some 100) 200).1.countP isBecomeHost = 1 ∧
    (migrate_host_and_shutdown
      ⟨[⟨0, some "h", some "/h"⟩, ⟨1, some "b", some "/b"⟩],
        [("/h", 0), ("/b", 1)], []⟩
      (some "/h") (some 100) 200).1.head? =
      some (MigAction.portWrite 200) ∧
    ∃ c ∈ [(⟨0, some "h", some "/h"⟩ : Session), ⟨1, some "b", some "/b"⟩],
      c.sid = 1 ∧ c.idb_path ≠ some "/h" := by
  have h := migration_single_election_persists_fresh_port
    ⟨[⟨0, some "h", some "/h"⟩, ⟨1, some "b", some "/b"⟩],
      [("/h", 0), ("/b", 1)], []⟩
    (some "/h") (some 100) 200
    ⟨⟨1, some "b", some "/b"⟩, by decide, by decide⟩
  exact ⟨h.1, h.2.1, h.2.2.1, h.2.2.2 1 (by decide)⟩

/-- C5 counterexample: the random draw for the fresh port can repeat the
persisted value — here the registry holds 12345, a non-hub peer remains,
`become_host` is sent, yet the registry after the shutdown still holds
12345, refuting that the Port Registry value after shutdown differs from
its value before. -/
theorem migration_port_unchanged_on_colliding_draw_cex :
    (migrate_host_and_shutdown
      ⟨[⟨0, some "h", some "/h"⟩, ⟨1, some "b", some "/b"⟩],
        [("/h", 0), ("/b", 1)], []⟩
      (some "/h") (some 12345) 12345).2 = some 12345 ∧
    MigAction.sendBecomeHost 1 ∈
      (migrate_host_and_shutdown
        ⟨[⟨0, some "h", some "/h"⟩, ⟨1, some "b", some "/b"⟩],
          [("/h", 0), ("/b", 1)], []⟩
        (some "/h") (some 12345) 12345).1 := by
  exact ⟨rfl, by decide⟩

/-- C6, confirmed: when every remaining session records the hub's own
client identifier (no session other than its own client remains), the
shutdown sends no `become_host` and performs no registry write — the Port
Registry is left unchanged. -/
theorem migration_no_candidates_sends_nothing
    (st : HubState) (clientIdbPath : Option String) (registry : Option Nat)
    (fresh : Nat) (h : ∀ c ∈ st.clients, c.idb_path = clientIdbPath) :
    (migrate_host_and_shutdown st clientIdbPath registry fresh).2 = registry ∧
    (migrate_host_and_shutdown st clientIdbPath registry fresh).1.countP
      isBecomeHost = 0 ∧
    (migrate_host_and_shutdown st clientIdbPath registry fresh).1.countP
      isPortWrite = 0 := by
  have hfil : st.clients.filter (fun x => x.idb_path ≠ clientIdbPath) = [] :=
    List.filter_eq_nil_iff.mpr (fun a ha => by simp [h a ha])
  have hmig : migrate_host_and_shutdown st clientIdbPath registry fresh =
      (MigAction.closeServer ::
        st.clients.map (fun c => MigAction.closeClient c.sid), registry) := by
    simp only [migrate_host_and_shutdown]
    rw [hfil]
  rw [hmig]
  exact ⟨rfl, countP_closes_becomeHost st.clients,
    countP_closes_portWrite st.clients⟩

/-- Witness for C6: only the hub's own client connection remains. -/
theorem migration_no_candidates_sends_nothing_witness :
    (migrate_host_and_shutdown ⟨[⟨0, some "h", some "/h"⟩], [("/h", 0)], []⟩
      (some "/h") (some 77) 88).2 = some 77 ∧
    (migrate_host_and_shutdown ⟨[⟨0, some "h", some "/h"⟩], [("/h", 0)], []⟩
      (some "/h") (some 77) 88).1.countP isBecomeHost = 0 ∧
    (migrate_host_and_shutdown ⟨[⟨0, some "h", some "/h"⟩], [("/h", 0)], []⟩
      (some "/h") (some 77) 88).1.countP isPortWrite = 0 :=
  migration_no_candidates_sends_nothing
    ⟨[⟨0, some "h", some "/h"⟩], [("/h", 0)], []⟩ (some "/h") (some 77) 88
    (by decide)

/-- C10, confirmed: the candidate computation compares only `idb_path`
values, so a connected-but-unidentified session (idb_path `none`) counts as
a candidate: on a roster whose only non-hub session never identified, that
session is elected and receives `become_host`. -/
theorem unidentified_session_elected_as_host :
    migrate_host_and_shutdown
        ⟨[⟨0, some "h", some "/h"⟩, ⟨1, none, none⟩], [("/h", 0)], []⟩
        (some "/h") (some 100) 200 =
      ([MigAction.portWrite 200, MigAction.sendBecomeHost 1,
        MigAction.closeServer, MigAction.closeClient 0,
        MigAction.closeClient 1], some 200) ∧
    findSession [⟨0, some "h", some "/h"⟩, ⟨1, none, none⟩] 1 =
      some ⟨1, none, none⟩ :=
  ⟨rfl, rfl⟩

end Continuum
